import Mathlib

/-
Verification of the GameTracer C ABI shim (c_api/gametracer_c_api.{h,cc}).

The shim is embedded shallowly:
* caller-supplied C buffers become `Option (List _)` (`none` = null pointer,
  `some xs` = a buffer whose cells hold `xs`);
* `size_t` arithmetic becomes `Nat` with explicit `% 2 ^ 64` where the C
  computation may wrap, and the incremental overflow guards of
  `compute_sizes` are translated literally;
* the upstream solver library (IPA, GNM, cvector, nfgame) is not part of
  the shim's sources; it is modelled from the spec's collaborator contract
  as an abstract structure whose `run` field may return any normal result
  or throw (`badAlloc` / `other`), so every theorem about the shim holds
  for every behaviour of the collaborator;
* a C++ exception escaping a call becomes a `CppError` value routed through
  the shim's catch clauses; the Lean model of each entry point is a total
  function into a result record, which models the contract that no
  exception propagates past the entry point;
* the process heap used by `malloc` / `free` is a list of live block ids,
  so that deallocation claims are statable; per-result native handles
  (`cvector*` entries of `Eq`) are accounted by the `released` counter.

Doubles are never inspected by the shim (they are only copied), so the
element type of payoff/ray/answer buffers is a type parameter `α`.
-/

namespace GameTracer

/-- Largest value of a C `int` (the shim targets 32-bit `int`). -/
def INT_MAX : Nat := 2 ^ 31 - 1

/-- Largest value of a C `size_t` (the shim targets 64-bit `size_t`). -/
def SIZE_MAX : Nat := 2 ^ 64 - 1

/-- Validated sizes of a game, as computed by `compute_sizes`. -/
structure GameSizes where
  N : Nat
  M : Nat
  P : Nat
  payoff_len : Nat
deriving DecidableEq, Repr

/-- The accumulation loop of `compute_sizes`: walks the action counts,
rejecting a non-positive entry, accumulating `M += ap` in `size_t`
(which may wrap) and `P *= ap` guarded by `P > SIZE_MAX / ap` exactly as
in the C source. -/
def szLoop : List Int → Nat → Nat → Option (Nat × Nat)
  | [], M, P => some (M, P)
  | ap :: rest, M, P =>
    if ap ≤ 0 then none
    else
      if SIZE_MAX / ap.toNat < P then none
      else szLoop rest ((M + ap.toNat) % 2 ^ 64) (P * ap.toNat)

/-- Model of `compute_sizes`: null / non-positive-player check, the
accumulation loop over the first `num_players` action counts, then the
`INT_MAX` range checks on `M`, `P` and `num_players * P`. -/
def compute_sizes (num_players : Int) (actions : Option (List Int)) :
    Option GameSizes :=
  match actions with
  | none => none
  | some acts =>
    if num_players ≤ 0 then none
    else
      match szLoop (acts.take num_players.toNat) 0 1 with
      | none => none
      | some (M, P) =>
        if INT_MAX < M then none
        else if INT_MAX < P then none
        else
          if INT_MAX < (num_players.toNat * P) % 2 ^ 64 then none
          else some ⟨num_players.toNat, M, P, (num_players.toNat * P) % 2 ^ 64⟩

/-- Model of `cleanup_eq`: given whether the `Eq` array pointer is non-null
and the number of per-result handles to delete, returns how many handles
are released (the C deletes `Eq[0..numEq)` then frees the array). -/
def cleanup_eq (eqPresent : Bool) (numEq : Nat) : Nat :=
  if eqPresent then numEq else 0

/-- Model of `gametracer_free` over the heap model: `std::free` of the null
sentinel is a no-op; freeing a live block removes it; freeing anything else
is undefined behaviour (`none`). -/
def gametracer_free (heap : List Nat) (p : Option Nat) : Option (List Nat) :=
  match p with
  | none => some heap
  | some q => if q ∈ heap then some (heap.erase q) else none

/-- A C++ failure escaping a collaborator call: heap exhaustion
(`std::bad_alloc`) or any other exception. -/
inductive CppError
  | badAlloc
  | other
deriving DecidableEq, Repr

/-- Outcome of one upstream `IPA` invocation: a normal return carrying the
return code, the mutated work vector and the filled answer vector, or an
escaped exception. -/
inductive IpaRes (α : Type)
  | ok (ret : Int) (zhOut ansOut : List α)
  | err (e : CppError)
deriving DecidableEq, Repr

/-- The upstream IPA collaborator, modelled from the spec's contract: a
function of the game (sizes, action counts, payoff block), the copied-in
ray and work vectors and the two scalar parameters.  `run_len` records the
cvector invariant that the work and answer vectors it hands back have
length `M`. -/
structure IpaSolver (α : Type) where
  run : GameSizes → List Int → List α → List α → List α → α → α → IpaRes α
  run_len : ∀ sz acts pay gv zhv a f r z an,
    run sz acts pay gv zhv a f = IpaRes.ok r z an →
    z.length = sz.M ∧ an.length = sz.M

/-- Result record of one `ipa` call: the return code, the final contents of
every caller buffer (unchanged when the shim did not store through the
corresponding pointer), and ghost flags recording whether the solver was
invoked and whether any heap allocation was attempted. -/
structure IpaCall (α : Type) where
  ret : Int
  actions : Option (List Int)
  payoffs : Option (List α)
  g : Option (List α)
  zh : Option (List α)
  ans : Option (List α)
  solverCalled : Bool
  allocated : Bool
deriving Repr

/-- Model of the `ipa` entry point.  Null checks, `compute_sizes`, then the
try block: adapter construction (which may fail with `adapterFail`), the
solver invocation on copies of the caller's buffers, and on a normal solver
return the two `memcpy`s back into the first `M` cells of `zh` and `ans`.
Both catch clauses become `-2` / `-3` results with the caller buffers left
as they were. -/
def ipa {α : Type} (adapterFail : Option CppError) (S : IpaSolver α)
    (num_players : Int) (actions : Option (List Int))
    (payoffs g zh : Option (List α)) (alpha fuzz : α)
    (ans : Option (List α)) : IpaCall α :=
  match actions, payoffs, g, zh, ans with
  | some acts, some pay, some gl, some zhl, some ansl =>
    match compute_sizes num_players (some acts) with
    | none =>
      ⟨-1, some acts, some pay, some gl, some zhl, some ansl, false, false⟩
    | some sz =>
      match adapterFail with
      | some CppError.badAlloc =>
        ⟨-2, some acts, some pay, some gl, some zhl, some ansl, false, true⟩
      | some CppError.other =>
        ⟨-3, some acts, some pay, some gl, some zhl, some ansl, false, true⟩
      | none =>
        match S.run sz (acts.take sz.N) (pay.take sz.payoff_len)
            (gl.take sz.M) (zhl.take sz.M) alpha fuzz with
        | IpaRes.err CppError.badAlloc =>
          ⟨-2, some acts, some pay, some gl, some zhl, some ansl, true, true⟩
        | IpaRes.err CppError.other =>
          ⟨-3, some acts, some pay, some gl, some zhl, some ansl, true, true⟩
        | IpaRes.ok r z an =>
          ⟨r, some acts, some pay, some gl,
            some (z.take sz.M ++ zhl.drop sz.M),
            some (an.take sz.M ++ ansl.drop sz.M), true, true⟩
  | _, _, _, _, _ =>
    ⟨-1, actions, payoffs, g, zh, ans, false, false⟩

/-- Outcome of one upstream `GNM` invocation: a normal return carrying the
count and the per-result native handles (each owning one flattened action
vector), or an escaped exception. -/
inductive GnmRes (α : Type)
  | ok (found : Int) (eqs : List (List α))
  | err (e : CppError)
deriving DecidableEq, Repr

/-- The upstream GNM collaborator, modelled from the spec's contract.
`run_wf` records that on a normal return there are exactly `found` result
handles and each owns a flattened action vector of length `M`. -/
structure GnmSolver (α : Type) where
  run : GameSizes → List Int → List α → List α →
    Int → α → Int → Int → α → Int → α → GnmRes α
  run_wf : ∀ sz acts pay gv steps fz lf lm lmin wob th f e,
    run sz acts pay gv steps fz lf lm lmin wob th = GnmRes.ok f e →
    e.length = f.toNat ∧ ∀ v ∈ e, v.length = sz.M

/-- Result record of one `gnm` call: the return code, the final value of
the caller's `*answers` cell (`none` = the null sentinel, `some (p, buf)` =
a heap block with id `p` holding `buf`), the number of per-result native
handles released, the heap after the call, the final contents of the
read-only caller buffers, and the ghost flags. -/
structure GnmCall (α : Type) where
  ret : Int
  answers : Option (Nat × List α)
  released : Nat
  heap : List Nat
  actions : Option (List Int)
  payoffs : Option (List α)
  g : Option (List α)
  solverCalled : Bool
  allocated : Bool

/-- Model of the `gnm` entry point.  `*answers` is nulled on entry; null
checks and `compute_sizes` give `-1`; inside the try block the adapter may
fail, then GNM runs on a copy of the ray; a zero count returns `0`, a
negative count is mapped to `-3`, and for a positive count the contiguous
block of `found * M` values is `malloc`ed (failure: `-2` after releasing
all `found` handles), filled row by row from the handles, the handles are
released, and ownership of the block transfers to the caller. -/
def gnm {α : Type} (adapterFail : Option CppError) (resultAllocFail : Bool)
    (S : GnmSolver α) (heap : List Nat) (fresh : Nat)
    (num_players : Int) (actions : Option (List Int))
    (payoffs g : Option (List α)) (answersPtr : Bool)
    (steps : Int) (fuzz : α) (lnmfreq lnmmax : Int) (lambdamin : α)
    (wobble : Int) (threshold : α) : GnmCall α :=
  match actions, payoffs, g, answersPtr with
  | some acts, some pay, some gl, true =>
    match compute_sizes num_players (some acts) with
    | none =>
      ⟨-1, none, 0, heap, some acts, some pay, some gl, false, false⟩
    | some sz =>
      match adapterFail with
      | some CppError.badAlloc =>
        ⟨-2, none, cleanup_eq false 0, heap, some acts, some pay, some gl,
          false, true⟩
      | some CppError.other =>
        ⟨-3, none, cleanup_eq false 0, heap, some acts, some pay, some gl,
          false, true⟩
      | none =>
        match S.run sz (acts.take sz.N) (pay.take sz.payoff_len)
            (gl.take sz.M) steps fuzz lnmfreq lnmmax lambdamin wobble
            threshold with
        | GnmRes.err CppError.badAlloc =>
          ⟨-2, none, cleanup_eq false 0, heap, some acts, some pay, some gl,
            true, true⟩
        | GnmRes.err CppError.other =>
          ⟨-3, none, cleanup_eq false 0, heap, some acts, some pay, some gl,
            true, true⟩
        | GnmRes.ok found eqs =>
          if found = 0 then
            ⟨0, none, cleanup_eq true 0, heap, some acts, some pay, some gl,
              true, true⟩
          else if found < 0 then
            ⟨-3, none, cleanup_eq true 0, heap, some acts, some pay, some gl,
              true, true⟩
          else if resultAllocFail then
            ⟨-2, none, cleanup_eq true found.toNat, heap, some acts,
              some pay, some gl, true, true⟩
          else
            ⟨found,
              some (fresh,
                ((eqs.take found.toNat).map fun v => v.take sz.M).flatten),
              cleanup_eq true found.toNat, fresh :: heap, some acts,
              some pay, some gl, true, true⟩
  | _, _, _, _ =>
    ⟨-1, none, 0, heap, actions, payoffs, g, false, false⟩

/-- An IPA collaborator that always returns normally with code `r`, work
vector all zeros and answer vector all ones (used to exercise the shim at
concrete inputs). -/
def constIpaSolver (r : Int) : IpaSolver Int where
  run := fun sz _ _ _ _ _ _ =>
    IpaRes.ok r (List.replicate sz.M 0) (List.replicate sz.M 1)
  run_len := by
    intro sz acts pay gv zhv a f r' z an h
    injection h with h1 h2 h3
    subst h2; subst h3
    simp

/-- An IPA collaborator whose invocation throws `e`. -/
def errIpaSolver (e : CppError) : IpaSolver Int where
  run := fun _ _ _ _ _ _ _ => IpaRes.err e
  run_len := by
    intro sz acts pay gv zhv a f r z an h
    exact IpaRes.noConfusion h

/-- A GNM collaborator that always returns normally with count `f` and, for
`f > 0`, result handles `[0,...], [1,...], ...` each of length `M`. -/
def listGnmSolver (f : Int) : GnmSolver Int where
  run := fun sz _ _ _ _ _ _ _ _ _ _ =>
    GnmRes.ok f
      ((List.range f.toNat).map fun k : Nat => List.replicate sz.M (Int.ofNat k))
  run_wf := by
    intro sz acts pay gv steps fz lf lm lmin wob th f' e h
    injection h with h1 h2
    subst h1; subst h2
    constructor
    · rw [List.length_map, List.length_range]
    · intro v hv
      simp only [List.mem_map] at hv
      obtain ⟨k, _, hk⟩ := hv
      simp [← hk]

/-- A GNM collaborator whose invocation throws `e`. -/
def errGnmSolver (e : CppError) : GnmSolver Int where
  run := fun _ _ _ _ _ _ _ _ _ _ _ => GnmRes.err e
  run_wf := by
    intro sz acts pay gv steps fz lf lm lmin wob th f e' h
    exact GnmRes.noConfusion h

/-! ### Helper lemmas about the size validator -/

theorem nat_sum_le (l : List Nat) (B : Nat) (h : ∀ a ∈ l, a ≤ B) :
    l.sum ≤ l.length * B := by
  induction l with
  | nil => simp
  | cons a rest ih =>
    simp only [List.sum_cons, List.length_cons]
    have ha := h a (by simp)
    have hr := ih (fun x hx => h x (by simp [hx]))
    calc a + rest.sum ≤ B + rest.length * B := by omega
    _ = (rest.length + 1) * B := by ring

theorem szLoop_pos_some (l : List Int) (M P : Nat)
    (hpos : ∀ a ∈ l, 0 < a)
    (hP : P * (l.map Int.toNat).prod ≤ SIZE_MAX)
    (hM : M + (l.map Int.toNat).sum < 2 ^ 64) :
    szLoop l M P =
      some (M + (l.map Int.toNat).sum, P * (l.map Int.toNat).prod) := by
  induction l generalizing M P with
  | nil => simp [szLoop]
  | cons ap rest ih =>
    have hap : 0 < ap := hpos ap (by simp)
    have hapn : 0 < ap.toNat := by omega
    simp only [List.map_cons, List.prod_cons, List.sum_cons] at hP hM ⊢
    have hprod1 : 0 < (rest.map Int.toNat).prod := by
      apply List.prod_pos
      intro x hx
      simp only [List.mem_map] at hx
      obtain ⟨a, ha, rfl⟩ := hx
      have := hpos a (by simp [ha])
      omega
    have hmono : P * ap.toNat ≤ P * (ap.toNat * (rest.map Int.toNat).prod) := by
      apply Nat.mul_le_mul_left
      exact Nat.le_mul_of_pos_right _ hprod1
    have hguard : ¬ SIZE_MAX / ap.toNat < P := by
      rw [Nat.not_lt, Nat.le_div_iff_mul_le hapn]
      exact le_trans hmono hP
    simp only [szLoop]
    rw [if_neg (by omega : ¬ ap ≤ 0), if_neg hguard]
    have hmod : (M + ap.toNat) % 2 ^ 64 = M + ap.toNat :=
      Nat.mod_eq_of_lt (by omega)
    rw [hmod]
    rw [ih (M + ap.toNat) (P * ap.toNat)
      (fun a ha => hpos a (by simp [ha]))
      (by rw [Nat.mul_assoc]; exact hP)
      (by omega)]
    rw [Nat.add_assoc, Nat.mul_assoc]

theorem szLoop_none_of_nonpos (l : List Int) (M P : Nat)
    (h : ∃ a ∈ l, a ≤ 0) : szLoop l M P = none := by
  induction l generalizing M P with
  | nil => simp at h
  | cons ap rest ih =>
    simp only [szLoop]
    by_cases h1 : ap ≤ 0
    · rw [if_pos h1]
    · rw [if_neg h1]
      by_cases h2 : SIZE_MAX / ap.toNat < P
      · rw [if_pos h2]
      · rw [if_neg h2]
        apply ih
        obtain ⟨a, ha, hle⟩ := h
        rcases List.mem_cons.mp ha with rfl | hmem
        · exact absurd hle h1
        · exact ⟨a, hmem, hle⟩

theorem szLoop_none_of_big (l : List Int) (M P : Nat)
    (hpos : ∀ a ∈ l, 0 < a) (hPle : P ≤ SIZE_MAX)
    (hbig : SIZE_MAX < P * (l.map Int.toNat).prod) :
    szLoop l M P = none := by
  induction l generalizing M P with
  | nil =>
    exfalso
    simp only [List.map_nil, List.prod_nil, Nat.mul_one] at hbig
    omega
  | cons ap rest ih =>
    have hap : 0 < ap := hpos ap (by simp)
    have hapn : 0 < ap.toNat := by omega
    simp only [List.map_cons, List.prod_cons] at hbig
    simp only [szLoop]
    rw [if_neg (by omega : ¬ ap ≤ 0)]
    by_cases hg : SIZE_MAX / ap.toNat < P
    · rw [if_pos hg]
    · rw [if_neg hg]
      have hPa : P * ap.toNat ≤ SIZE_MAX :=
        (Nat.le_div_iff_mul_le hapn).mp (Nat.not_lt.mp hg)
      refine ih _ _ (fun a ha => hpos a (by simp [ha])) hPa ?_
      rw [← Nat.mul_assoc] at hbig
      exact hbig

theorem szLoop_some_inv (l : List Int) (M₀ P₀ M P : Nat)
    (hM : M₀ + (l.map Int.toNat).sum < 2 ^ 64)
    (h : szLoop l M₀ P₀ = some (M, P)) :
    (∀ a ∈ l, 0 < a) ∧ M = M₀ + (l.map Int.toNat).sum ∧
      P = P₀ * (l.map Int.toNat).prod := by
  induction l generalizing M₀ P₀ with
  | nil =>
    simp only [szLoop, Option.some.injEq, Prod.mk.injEq] at h
    simp [← h.1, ← h.2]
  | cons ap rest ih =>
    simp only [szLoop] at h
    by_cases h1 : ap ≤ 0
    · rw [if_pos h1] at h
      exact absurd h (by simp)
    · rw [if_neg h1] at h
      by_cases h2 : SIZE_MAX / ap.toNat < P₀
      · rw [if_pos h2] at h
        exact absurd h (by simp)
      · rw [if_neg h2] at h
        simp only [List.map_cons, List.sum_cons, List.prod_cons] at hM ⊢
        have hmod : (M₀ + ap.toNat) % 2 ^ 64 = M₀ + ap.toNat :=
          Nat.mod_eq_of_lt (by omega)
        rw [hmod] at h
        obtain ⟨hpos, hMe, hPe⟩ :=
          ih (M₀ + ap.toNat) (P₀ * ap.toNat) (by omega) h
        refine ⟨?_, by omega, by rw [hPe, Nat.mul_assoc]⟩
        intro a ha
        rcases List.mem_cons.mp ha with rfl | hmem
        · omega
        · exact hpos a hmem

theorem take_sum_lt (num_players : Int) (acts : List Int)
    (hN : num_players.toNat ≤ 2 ^ 31)
    (hb : ∀ a ∈ acts.take num_players.toNat, a < 2 ^ 31) :
    ((acts.take num_players.toNat).map Int.toNat).sum < 2 ^ 64 := by
  have hlen : ((acts.take num_players.toNat).map Int.toNat).length ≤ 2 ^ 31 := by
    rw [List.length_map]
    calc (acts.take num_players.toNat).length ≤ num_players.toNat :=
      List.length_take_le _ _
    _ ≤ 2 ^ 31 := hN
  have hB : ∀ x ∈ (acts.take num_players.toNat).map Int.toNat, x ≤ 2 ^ 31 - 1 := by
    intro x hx
    simp only [List.mem_map] at hx
    obtain ⟨a, ha, rfl⟩ := hx
    have := hb a ha
    omega
  have := nat_sum_le _ _ hB
  have : ((acts.take num_players.toNat).map Int.toNat).sum ≤ 2 ^ 31 * (2 ^ 31 - 1) := by
    calc ((acts.take num_players.toNat).map Int.toNat).sum
        ≤ ((acts.take num_players.toNat).map Int.toNat).length * (2 ^ 31 - 1) :=
          nat_sum_le _ _ hB
    _ ≤ 2 ^ 31 * (2 ^ 31 - 1) := Nat.mul_le_mul_right _ hlen
  omega

theorem compute_sizes_some_of_good (num_players : Int) (acts : List Int)
    (h0 : 0 < num_players)
    (hpos : ∀ a ∈ acts.take num_players.toNat, 0 < a)
    (hM : ((acts.take num_players.toNat).map Int.toNat).sum ≤ INT_MAX)
    (hP : ((acts.take num_players.toNat).map Int.toNat).prod ≤ INT_MAX)
    (hNP : num_players.toNat *
      ((acts.take num_players.toNat).map Int.toNat).prod ≤ INT_MAX) :
    compute_sizes num_players (some acts) =
      some ⟨num_players.toNat,
        ((acts.take num_players.toNat).map Int.toNat).sum,
        ((acts.take num_players.toNat).map Int.toNat).prod,
        num_players.toNat *
          ((acts.take num_players.toNat).map Int.toNat).prod⟩ := by
  have hloop := szLoop_pos_some (acts.take num_players.toNat) 0 1 hpos
    (by
      rw [Nat.one_mul]
      exact le_trans hP (by unfold INT_MAX SIZE_MAX; omega))
    (by
      rw [Nat.zero_add]
      unfold INT_MAX at hM
      omega)
  rw [Nat.zero_add, Nat.one_mul] at hloop
  simp only [compute_sizes]
  rw [if_neg (by omega : ¬ num_players ≤ 0), hloop]
  have hmodNP : (num_players.toNat *
      ((acts.take num_players.toNat).map Int.toNat).prod) % 2 ^ 64 =
      num_players.toNat * ((acts.take num_players.toNat).map Int.toNat).prod := by
    apply Nat.mod_eq_of_lt
    unfold INT_MAX at hNP
    omega
  simp only [hmodNP]
  rw [if_neg (by omega : ¬ INT_MAX <
      ((acts.take num_players.toNat).map Int.toNat).sum),
    if_neg (by omega : ¬ INT_MAX <
      ((acts.take num_players.toNat).map Int.toNat).prod),
    if_neg (by omega : ¬ INT_MAX < num_players.toNat *
      ((acts.take num_players.toNat).map Int.toNat).prod)]

theorem compute_sizes_some_inv (num_players : Int) (acts : List Int)
    (sz : GameSizes)
    (hN : num_players.toNat ≤ 2 ^ 31)
    (hb : ∀ a ∈ acts.take num_players.toNat, a < 2 ^ 31)
    (h : compute_sizes num_players (some acts) = some sz) :
    0 < num_players ∧ (∀ a ∈ acts.take num_players.toNat, 0 < a) ∧
      sz.N = num_players.toNat ∧
      sz.M = ((acts.take num_players.toNat).map Int.toNat).sum ∧
      sz.P = ((acts.take num_players.toNat).map Int.toNat).prod ∧
      sz.payoff_len = num_players.toNat * sz.P ∧
      sz.M ≤ INT_MAX ∧ sz.P ≤ INT_MAX ∧ sz.payoff_len ≤ INT_MAX := by
  simp only [compute_sizes] at h
  by_cases h0 : num_players ≤ 0
  · rw [if_pos h0] at h
    exact absurd h (by simp)
  rw [if_neg h0] at h
  rcases hsl : szLoop (acts.take num_players.toNat) 0 1 with _ | ⟨M, P⟩
  · rw [hsl] at h
    exact absurd h (by simp)
  rw [hsl] at h
  simp only [] at h
  have hsum := take_sum_lt num_players acts hN hb
  obtain ⟨hpos, hMe, hPe⟩ := szLoop_some_inv _ 0 1 M P (by omega) hsl
  rw [Nat.zero_add] at hMe
  rw [Nat.one_mul] at hPe
  by_cases hMc : INT_MAX < M
  · rw [if_pos hMc] at h
    exact absurd h (by simp)
  rw [if_neg hMc] at h
  by_cases hPc : INT_MAX < P
  · rw [if_pos hPc] at h
    exact absurd h (by simp)
  rw [if_neg hPc] at h
  have hmodNP : (num_players.toNat * P) % 2 ^ 64 = num_players.toNat * P := by
    apply Nat.mod_eq_of_lt
    have : P ≤ INT_MAX := by omega
    unfold INT_MAX at this
    have : num_players.toNat * P ≤ 2 ^ 31 * (2 ^ 31 - 1) :=
      Nat.mul_le_mul hN this
    omega
  rw [hmodNP] at h
  by_cases hNPc : INT_MAX < num_players.toNat * P
  · rw [if_pos hNPc] at h
    exact absurd h (by simp)
  rw [if_neg hNPc] at h
  injection h with h
  refine ⟨by omega, hpos, ?_, ?_, ?_, ?_, ?_, ?_, ?_⟩
  · rw [← h]
  · rw [← h]
    exact hMe
  · rw [← h]
    exact hPe
  · rw [← h]
  · rw [← h]
    exact Nat.not_lt.mp hMc
  · rw [← h]
    exact Nat.not_lt.mp hPc
  · rw [← h]
    exact Nat.not_lt.mp hNPc

theorem compute_sizes_none_of_bad (num_players : Int) (acts : List Int)
    (hN : num_players.toNat ≤ 2 ^ 31)
    (hb : ∀ a ∈ acts.take num_players.toNat, a < 2 ^ 31)
    (hbad : num_players ≤ 0 ∨ (∃ a ∈ acts.take num_players.toNat, a ≤ 0) ∨
      INT_MAX < ((acts.take num_players.toNat).map Int.toNat).sum ∨
      INT_MAX < ((acts.take num_players.toNat).map Int.toNat).prod ∨
      INT_MAX < num_players.toNat *
        ((acts.take num_players.toNat).map Int.toNat).prod) :
    compute_sizes num_players (some acts) = none := by
  rcases hsz : compute_sizes num_players (some acts) with _ | sz
  · rfl
  exfalso
  obtain ⟨h0, hpos, _, hMe, hPe, hple, hMle, hPle, hNPle⟩ :=
    compute_sizes_some_inv num_players acts sz hN hb hsz
  rcases hbad with hbad | hbad | hbad | hbad | hbad
  · omega
  · obtain ⟨a, ha, hle⟩ := hbad
    have := hpos a ha
    omega
  · omega
  · omega
  · rw [hple, hPe] at hNPle
    omega

/-! ### Helper lemmas about flattened result blocks -/

theorem flatten_length_const {α : Type} (L : List (List α)) (M : Nat)
    (hL : ∀ e ∈ L, e.length = M) : L.flatten.length = L.length * M := by
  induction L with
  | nil => simp
  | cons e rest ih =>
    simp only [List.flatten_cons, List.length_append, List.length_cons]
    rw [hL e (by simp), ih (fun x hx => hL x (by simp [hx]))]
    ring

theorem flatten_getElem {α : Type} (L : List (List α)) (M : Nat) :
    ∀ row i, (∀ e ∈ L, e.length = M) → row < L.length → i < M →
      L.flatten[row * M + i]? = L[row]?.bind fun e => e[i]? := by
  induction L with
  | nil =>
    intro row i _ hrow _
    simp at hrow
  | cons e rest ih =>
    intro row i hL hrow hi
    have he : e.length = M := hL e (by simp)
    cases row with
    | zero =>
      simp only [List.flatten_cons, Nat.zero_mul, Nat.zero_add,
        List.getElem?_cons_zero, Option.some_bind]
      rw [List.getElem?_append]
      simp [he, hi]
    | succ r =>
      have hge : e.length ≤ (r + 1) * M + i := by
        rw [he, Nat.succ_mul]
        omega
      rw [List.flatten_cons, List.getElem?_append_right hge, he]
      have harith : (r + 1) * M + i - M = r * M + i := by
        rw [Nat.succ_mul]
        omega
      rw [harith, List.getElem?_cons_succ]
      exact ih r i (fun x hx => hL x (by simp [hx])) (by simpa using hrow) hi

/-! ### Claim theorems -/

/-- C6: for every positive player count and sequence of positive action
counts that passes validation (under the C `int` bounds on the arguments),
the size validator outputs exactly `M = Σ actions[p]`, `P = Π actions[p]`
and payoff length `N·P`; in particular for `N = 2`, `actions = [3, 2]` it
yields `M = 5`, `P = 6` and payoff length `12`. -/
theorem size_validator_outputs_sum_prod (num_players : Int)
    (acts : List Int) (sz : GameSizes)
    (hN : num_players.toNat ≤ 2 ^ 31)
    (hb : ∀ a ∈ acts.take num_players.toNat, a < 2 ^ 31)
    (h : compute_sizes num_players (some acts) = some sz) :
    (sz.N = num_players.toNat ∧
      sz.M = ((acts.take num_players.toNat).map Int.toNat).sum ∧
      sz.P = ((acts.take num_players.toNat).map Int.toNat).prod ∧
      sz.payoff_len = num_players.toNat * sz.P) ∧
    compute_sizes 2 (some [3, 2]) = some ⟨2, 5, 6, 12⟩ := by
  obtain ⟨_, _, hNe, hMe, hPe, hple, _, _, _⟩ :=
    compute_sizes_some_inv num_players acts sz hN hb h
  exact ⟨⟨hNe, hMe, hPe, hple⟩, by decide⟩

/-- Witness for C6 at `num_players = 2`, `actions = [3, 2]`. -/
theorem size_validator_outputs_sum_prod_witness :
    ((⟨2, 5, 6, 12⟩ : GameSizes).N = (2 : Int).toNat ∧
      (⟨2, 5, 6, 12⟩ : GameSizes).M =
        ((([3, 2] : List Int).take (2 : Int).toNat).map Int.toNat).sum ∧
      (⟨2, 5, 6, 12⟩ : GameSizes).P =
        ((([3, 2] : List Int).take (2 : Int).toNat).map Int.toNat).prod ∧
      (⟨2, 5, 6, 12⟩ : GameSizes).payoff_len =
        (2 : Int).toNat * (⟨2, 5, 6, 12⟩ : GameSizes).P) ∧
    compute_sizes 2 (some [3, 2]) = some ⟨2, 5, 6, 12⟩ :=
  size_validator_outputs_sum_prod 2 [3, 2] ⟨2, 5, 6, 12⟩ (by decide)
    (by decide) (by decide)

/-- C2: for every call to `ipa` or `gnm` in which `num_players ≤ 0`, or a
required pointer argument is null, or some action count is non-positive, or
the total action count `M`, the profile count `P` or the payoff length
`N·P` overflows the representable `int` range (the arguments themselves
being representable C values), the call returns -1, performs no heap
allocation and never invokes the solver. -/
theorem validation_failure_never_allocates {α : Type}
    (adapterFail : Option CppError) (resultAllocFail : Bool)
    (S : IpaSolver α) (T : GnmSolver α) (num_players : Int)
    (actionsO : Option (List Int)) (payO gO zhO ansO : Option (List α))
    (alpha fz : α) (heap : List Nat) (fresh : Nat) (answersPtr : Bool)
    (steps lf lm wob : Int) (lmin th : α)
    (hN : num_players.toNat ≤ 2 ^ 31)
    (hb : ∀ acts, actionsO = some acts →
      ∀ a ∈ acts.take num_players.toNat, a < 2 ^ 31) :
    ((num_players ≤ 0 ∨ actionsO = none ∨ payO = none ∨ gO = none ∨
        zhO = none ∨ ansO = none ∨
        (∃ acts, actionsO = some acts ∧
          ((∃ a ∈ acts.take num_players.toNat, a ≤ 0) ∨
            INT_MAX < ((acts.take num_players.toNat).map Int.toNat).sum ∨
            INT_MAX < ((acts.take num_players.toNat).map Int.toNat).prod ∨
            INT_MAX < num_players.toNat *
              ((acts.take num_players.toNat).map Int.toNat).prod))) →
      ((ipa adapterFail S num_players actionsO payO gO zhO alpha fz
          ansO).ret,
        (ipa adapterFail S num_players actionsO payO gO zhO alpha fz
          ansO).allocated,
        (ipa adapterFail S num_players actionsO payO gO zhO alpha fz
          ansO).solverCalled) = (-1, false, false)) ∧
    ((num_players ≤ 0 ∨ actionsO = none ∨ payO = none ∨ gO = none ∨
        answersPtr = false ∨
        (∃ acts, actionsO = some acts ∧
          ((∃ a ∈ acts.take num_players.toNat, a ≤ 0) ∨
            INT_MAX < ((acts.take num_players.toNat).map Int.toNat).sum ∨
            INT_MAX < ((acts.take num_players.toNat).map Int.toNat).prod ∨
            INT_MAX < num_players.toNat *
              ((acts.take num_players.toNat).map Int.toNat).prod))) →
      ((gnm adapterFail resultAllocFail T heap fresh num_players actionsO
          payO gO answersPtr steps fz lf lm lmin wob th).ret,
        (gnm adapterFail resultAllocFail T heap fresh num_players actionsO
          payO gO answersPtr steps fz lf lm lmin wob th).allocated,
        (gnm adapterFail resultAllocFail T heap fresh num_players actionsO
          payO gO answersPtr steps fz lf lm lmin wob th).solverCalled) =
        (-1, false, false)) := by
  constructor
  · intro hbad
    rcases actionsO with _ | acts
    · simp [ipa]
    rcases payO with _ | pay
    · simp [ipa]
    rcases gO with _ | gl
    · simp [ipa]
    rcases zhO with _ | zhl
    · simp [ipa]
    rcases ansO with _ | ansl
    · simp [ipa]
    have hbad' : num_players ≤ 0 ∨
        (∃ a ∈ acts.take num_players.toNat, a ≤ 0) ∨
        INT_MAX < ((acts.take num_players.toNat).map Int.toNat).sum ∨
        INT_MAX < ((acts.take num_players.toNat).map Int.toNat).prod ∨
        INT_MAX < num_players.toNat *
          ((acts.take num_players.toNat).map Int.toNat).prod := by
      rcases hbad with h | h | h | h | h | h | ⟨acts', hacts, h⟩
      · exact Or.inl h
      · exact Option.noConfusion h
      · exact Option.noConfusion h
      · exact Option.noConfusion h
      · exact Option.noConfusion h
      · exact Option.noConfusion h
      · injection hacts with hacts
        subst hacts
        exact Or.inr h
    have hcs := compute_sizes_none_of_bad num_players acts hN
      (hb acts rfl) hbad'
    simp [ipa, hcs]
  · intro hbad
    rcases actionsO with _ | acts
    · simp [gnm]
    rcases payO with _ | pay
    · simp [gnm]
    rcases gO with _ | gl
    · simp [gnm]
    rcases answersPtr
    · simp [gnm]
    have hbad' : num_players ≤ 0 ∨
        (∃ a ∈ acts.take num_players.toNat, a ≤ 0) ∨
        INT_MAX < ((acts.take num_players.toNat).map Int.toNat).sum ∨
        INT_MAX < ((acts.take num_players.toNat).map Int.toNat).prod ∨
        INT_MAX < num_players.toNat *
          ((acts.take num_players.toNat).map Int.toNat).prod := by
      rcases hbad with h | h | h | h | h | ⟨acts', hacts, h⟩
      · exact Or.inl h
      · exact Option.noConfusion h
      · exact Option.noConfusion h
      · exact Option.noConfusion h
      · exact Bool.noConfusion h
      · injection hacts with hacts
        subst hacts
        exact Or.inr h
    have hcs := compute_sizes_none_of_bad num_players acts hN
      (hb acts rfl) hbad'
    simp [gnm, hcs]

/-- Witness for C2: `ipa` and `gnm` called with `num_players = 0`. -/
theorem validation_failure_never_allocates_witness :
    (((ipa none (constIpaSolver 1) 0 (some [1]) (some ([0] : List Int))
        (some [0]) (some [0]) 0 0 (some [0])).ret,
      (ipa none (constIpaSolver 1) 0 (some [1]) (some ([0] : List Int))
        (some [0]) (some [0]) 0 0 (some [0])).allocated,
      (ipa none (constIpaSolver 1) 0 (some [1]) (some ([0] : List Int))
        (some [0]) (some [0]) 0 0 (some [0])).solverCalled) =
      (-1, false, false)) ∧
    (((gnm none false (listGnmSolver 1) [] 0 0 (some [1])
        (some ([0] : List Int)) (some [0]) true 0 0 0 0 0 0 0).ret,
      (gnm none false (listGnmSolver 1) [] 0 0 (some [1])
        (some ([0] : List Int)) (some [0]) true 0 0 0 0 0 0 0).allocated,
      (gnm none false (listGnmSolver 1) [] 0 0 (some [1])
        (some ([0] : List Int)) (some [0]) true 0 0 0 0 0 0 0).solverCalled) =
      (-1, false, false)) := by
  have h := validation_failure_never_allocates none false (constIpaSolver 1)
    (listGnmSolver 1) 0 (some [1]) (some ([0] : List Int)) (some [0])
    (some [0]) (some [0]) 0 0 [] 0 true 0 0 0 0 0 0 (by decide)
    (by intro acts hacts; injection hacts with hacts; subst hacts; decide)
  exact ⟨h.1 (Or.inl (by decide)), h.2 (Or.inl (by decide))⟩

/-- C1: for every call to `ipa` or `gnm` that passes size validation, any
internal failure is converted to a negative return code, and — each entry
point being modelled as a total function into a result code — no exception
propagates past the entry point: heap exhaustion during adapter
construction or inside the collaborator yields -2 (in `gnm`'s result-block
allocation failure, all `found` per-result native handles are released
before -2 is returned), any other exception yields -3, and a negative
return from the upstream GNM solver yields -3. -/
theorem internal_failures_become_codes {α : Type} (S : IpaSolver α)
    (T : GnmSolver α) (resultAllocFail : Bool) (num_players : Int)
    (acts : List Int) (pay gl zhl ansl : List α) (alpha fz : α)
    (sz : GameSizes) (heap : List Nat) (fresh : Nat)
    (steps lf lm wob : Int) (lmin th : α)
    (hsz : compute_sizes num_players (some acts) = some sz) :
    (ipa (some CppError.badAlloc) S num_players (some acts) (some pay)
      (some gl) (some zhl) alpha fz (some ansl)).ret = -2 ∧
    (ipa (some CppError.other) S num_players (some acts) (some pay)
      (some gl) (some zhl) alpha fz (some ansl)).ret = -3 ∧
    (S.run sz (acts.take sz.N) (pay.take sz.payoff_len) (gl.take sz.M)
        (zhl.take sz.M) alpha fz = IpaRes.err CppError.badAlloc →
      (ipa none S num_players (some acts) (some pay) (some gl) (some zhl)
        alpha fz (some ansl)).ret = -2) ∧
    (S.run sz (acts.take sz.N) (pay.take sz.payoff_len) (gl.take sz.M)
        (zhl.take sz.M) alpha fz = IpaRes.err CppError.other →
      (ipa none S num_players (some acts) (some pay) (some gl) (some zhl)
        alpha fz (some ansl)).ret = -3) ∧
    (gnm (some CppError.badAlloc) resultAllocFail T heap fresh num_players
      (some acts) (some pay) (some gl) true steps fz lf lm lmin wob
      th).ret = -2 ∧
    (gnm (some CppError.other) resultAllocFail T heap fresh num_players
      (some acts) (some pay) (some gl) true steps fz lf lm lmin wob
      th).ret = -3 ∧
    (T.run sz (acts.take sz.N) (pay.take sz.payoff_len) (gl.take sz.M)
        steps fz lf lm lmin wob th = GnmRes.err CppError.badAlloc →
      (gnm none resultAllocFail T heap fresh num_players (some acts)
        (some pay) (some gl) true steps fz lf lm lmin wob th).ret = -2 ∧
      (gnm none resultAllocFail T heap fresh num_players (some acts)
        (some pay) (some gl) true steps fz lf lm lmin wob th).answers =
        none) ∧
    (T.run sz (acts.take sz.N) (pay.take sz.payoff_len) (gl.take sz.M)
        steps fz lf lm lmin wob th = GnmRes.err CppError.other →
      (gnm none resultAllocFail T heap fresh num_players (some acts)
        (some pay) (some gl) true steps fz lf lm lmin wob th).ret = -3 ∧
      (gnm none resultAllocFail T heap fresh num_players (some acts)
        (some pay) (some gl) true steps fz lf lm lmin wob th).answers =
        none) ∧
    (∀ f e, T.run sz (acts.take sz.N) (pay.take sz.payoff_len)
        (gl.take sz.M) steps fz lf lm lmin wob th = GnmRes.ok f e →
      f < 0 →
      (gnm none resultAllocFail T heap fresh num_players (some acts)
        (some pay) (some gl) true steps fz lf lm lmin wob th).ret = -3 ∧
      (gnm none resultAllocFail T heap fresh num_players (some acts)
        (some pay) (some gl) true steps fz lf lm lmin wob th).answers =
        none) ∧
    (∀ f e, T.run sz (acts.take sz.N) (pay.take sz.payoff_len)
        (gl.take sz.M) steps fz lf lm lmin wob th = GnmRes.ok f e →
      0 < f →
      (gnm none true T heap fresh num_players (some acts) (some pay)
        (some gl) true steps fz lf lm lmin wob th).ret = -2 ∧
      (gnm none true T heap fresh num_players (some acts) (some pay)
        (some gl) true steps fz lf lm lmin wob th).answers = none ∧
      (gnm none true T heap fresh num_players (some acts) (some pay)
        (some gl) true steps fz lf lm lmin wob th).released = f.toNat) := by
  refine ⟨?_, ?_, ?_, ?_, ?_, ?_, ?_, ?_, ?_, ?_⟩
  · simp [ipa, hsz]
  · simp [ipa, hsz]
  · intro hrun
    simp [ipa, hsz, hrun]
  · intro hrun
    simp [ipa, hsz, hrun]
  · simp [gnm, hsz]
  · simp [gnm, hsz]
  · intro hrun
    simp [gnm, hsz, hrun]
  · intro hrun
    simp [gnm, hsz, hrun]
  · intro f e hrun hf
    have h0 : ¬ f = 0 := by omega
    simp [gnm, hsz, hrun, h0, hf, cleanup_eq]
  · intro f e hrun hf
    have h0 : ¬ f = 0 := by omega
    have hneg : ¬ f < 0 := by omega
    simp [gnm, hsz, hrun, h0, hneg, cleanup_eq]

/-- Witness for C1 at a concrete validated one-player game, with throwing
and negative-returning collaborators. -/
theorem internal_failures_become_codes_witness :
    (ipa (some CppError.badAlloc) (errIpaSolver CppError.badAlloc) 1
      (some [1]) (some [(0 : Int)]) (some [0]) (some [0]) 0 0
      (some [0])).ret = -2 ∧
    (ipa none (errIpaSolver CppError.badAlloc) 1 (some [1])
      (some [(0 : Int)]) (some [0]) (some [0]) 0 0 (some [0])).ret = -2 ∧
    (gnm none false (listGnmSolver (-1)) [] 0 1 (some [1])
      (some [(0 : Int)]) (some [0]) true 0 0 0 0 0 0 0).ret = -3 := by
  have h := internal_failures_become_codes (errIpaSolver CppError.badAlloc)
    (listGnmSolver (-1)) false 1 [1] [(0 : Int)] [0] [0] [0] 0 0
    ⟨1, 1, 1, 1⟩ [] 0 0 0 0 0 0 0 (by decide)
  refine ⟨h.1, h.2.2.1 (by decide), ?_⟩
  have h9 := h.2.2.2.2.2.2.2.2.1 (-1)
    ((List.range (-1 : Int).toNat).map fun k : Nat =>
      List.replicate (1 : Nat) (Int.ofNat k)) (by decide) (by decide)
  exact h9.1

theorem gnm_shape {α : Type} (adapterFail : Option CppError)
    (resultAllocFail : Bool) (T : GnmSolver α) (heap : List Nat)
    (fresh : Nat) (num_players : Int) (actionsO : Option (List Int))
    (payO gO : Option (List α)) (answersPtr : Bool)
    (steps lf lm wob : Int) (fz lmin th : α) :
    ((gnm adapterFail resultAllocFail T heap fresh num_players actionsO
        payO gO answersPtr steps fz lf lm lmin wob th).answers = none ∧
      (gnm adapterFail resultAllocFail T heap fresh num_players actionsO
        payO gO answersPtr steps fz lf lm lmin wob th).heap = heap ∧
      (gnm adapterFail resultAllocFail T heap fresh num_players actionsO
        payO gO answersPtr steps fz lf lm lmin wob th).ret ≤ 0 ∧
      (gnm adapterFail resultAllocFail T heap fresh num_players actionsO
        payO gO answersPtr steps fz lf lm lmin wob th).actions = actionsO ∧
      (gnm adapterFail resultAllocFail T heap fresh num_players actionsO
        payO gO answersPtr steps fz lf lm lmin wob th).payoffs = payO ∧
      (gnm adapterFail resultAllocFail T heap fresh num_players actionsO
        payO gO answersPtr steps fz lf lm lmin wob th).g = gO) ∨
    (∃ acts pay gl sz f eqs,
      actionsO = some acts ∧ payO = some pay ∧ gO = some gl ∧
      answersPtr = true ∧ adapterFail = none ∧ resultAllocFail = false ∧
      compute_sizes num_players (some acts) = some sz ∧
      T.run sz (acts.take sz.N) (pay.take sz.payoff_len) (gl.take sz.M)
        steps fz lf lm lmin wob th = GnmRes.ok f eqs ∧ 0 < f ∧
      gnm adapterFail resultAllocFail T heap fresh num_players actionsO
          payO gO answersPtr steps fz lf lm lmin wob th =
        ⟨f, some (fresh,
            ((eqs.take f.toNat).map fun v => v.take sz.M).flatten),
          f.toNat, fresh :: heap, some acts, some pay, some gl, true,
          true⟩) := by
  rcases actionsO with _ | acts
  · left
    simp [gnm]
  rcases payO with _ | pay
  · left
    simp [gnm]
  rcases gO with _ | gl
  · left
    simp [gnm]
  rcases answersPtr
  · left
    simp [gnm]
  rcases hsz : compute_sizes num_players (some acts) with _ | sz
  · left
    simp [gnm, hsz]
  rcases adapterFail with _ | e
  case some =>
    left
    rcases e <;> simp [gnm, hsz]
  rcases hrun : T.run sz (acts.take sz.N) (pay.take sz.payoff_len)
    (gl.take sz.M) steps fz lf lm lmin wob th with ⟨f, eqs⟩ | e
  case err =>
    left
    rcases e <;> simp [gnm, hsz, hrun]
  by_cases h0 : f = 0
  · left
    simp [gnm, hsz, hrun, h0]
  by_cases hneg : f < 0
  · left
    simp [gnm, hsz, hrun, h0, hneg]
  rcases resultAllocFail with _ | _
  · right
    refine ⟨acts, pay, gl, sz, f, eqs, rfl, rfl, rfl, rfl, rfl, rfl, hsz,
      hrun, by omega, ?_⟩
    simp [gnm, hsz, hrun, h0, hneg, cleanup_eq]
  · left
    simp [gnm, hsz, hrun, h0, hneg]

/-- C3: `gnm`'s `answers` out-parameter is set to the null/no-buffer
sentinel on every non-positive or error return; in particular, when the
upstream solver discovers zero equilibria, `gnm` returns 0 and `*answers`
is the sentinel. -/
theorem gnm_answers_sentinel {α : Type} (adapterFail : Option CppError)
    (resultAllocFail : Bool) (T : GnmSolver α) (heap : List Nat)
    (fresh : Nat) (num_players : Int) (actionsO : Option (List Int))
    (payO gO : Option (List α)) (answersPtr : Bool)
    (steps lf lm wob : Int) (fz lmin th : α) :
    ((gnm adapterFail resultAllocFail T heap fresh num_players actionsO
        payO gO answersPtr steps fz lf lm lmin wob th).ret ≤ 0 →
      (gnm adapterFail resultAllocFail T heap fresh num_players actionsO
        payO gO answersPtr steps fz lf lm lmin wob th).answers = none) ∧
    (∀ acts pay gl sz e, actionsO = some acts → payO = some pay →
      gO = some gl → answersPtr = true → adapterFail = none →
      compute_sizes num_players (some acts) = some sz →
      T.run sz (acts.take sz.N) (pay.take sz.payoff_len) (gl.take sz.M)
        steps fz lf lm lmin wob th = GnmRes.ok 0 e →
      (gnm adapterFail resultAllocFail T heap fresh num_players actionsO
        payO gO answersPtr steps fz lf lm lmin wob th).ret = 0 ∧
      (gnm adapterFail resultAllocFail T heap fresh num_players actionsO
        payO gO answersPtr steps fz lf lm lmin wob th).answers = none) := by
  constructor
  · intro hret
    rcases gnm_shape adapterFail resultAllocFail T heap fresh num_players
      actionsO payO gO answersPtr steps lf lm wob fz lmin th with
      ⟨ha, _, _, _, _, _⟩ | ⟨acts, pay, gl, sz, f, eqs, _, _, _, _, _, _, _, _,
        hf, hR⟩
    · exact ha
    · rw [hR] at hret
      exact absurd hret (by simp; omega)
  · intro acts pay gl sz e ha hp hg hap haf hsz hrun
    subst ha
    subst hp
    subst hg
    subst hap
    subst haf
    simp [gnm, hsz, hrun]

/-- Witness for C3: a validated call whose collaborator finds zero
equilibria returns 0 with the sentinel. -/
theorem gnm_answers_sentinel_witness :
    (gnm none false (listGnmSolver 0) [] 0 1 (some [1])
      (some [(0 : Int)]) (some [0]) true 0 0 0 0 0 0 0).ret = 0 ∧
    (gnm none false (listGnmSolver 0) [] 0 1 (some [1])
      (some [(0 : Int)]) (some [0]) true 0 0 0 0 0 0 0).answers = none := by
  have h := gnm_answers_sentinel none false (listGnmSolver 0) [] 0 1
    (some [1]) (some [(0 : Int)]) (some [0]) true 0 0 0 0 0 0 0
  exact h.2 [1] [(0 : Int)] [0] ⟨1, 1, 1, 1⟩ [] rfl rfl rfl rfl rfl
    (by decide) (by decide)

/-- C4: for every call to `gnm` in which the upstream solver discovers
`f > 0` equilibria and the result-block allocation succeeds, `gnm` returns
`f`, `*answers` points to one contiguous heap block of `f·M` values with
`answers[row·M + i]` equal to the i-th entry of the row-th equilibrium for
all `0 ≤ row < f` and `0 ≤ i < M`, and every per-result native handle is
released before returning. -/
theorem gnm_success_marshals {α : Type} (T : GnmSolver α) (heap : List Nat)
    (fresh : Nat) (num_players : Int) (acts : List Int) (pay gl : List α)
    (steps lf lm wob : Int) (fz lmin th : α) (sz : GameSizes) (f : Int)
    (eqs : List (List α))
    (hsz : compute_sizes num_players (some acts) = some sz)
    (hrun : T.run sz (acts.take sz.N) (pay.take sz.payoff_len)
      (gl.take sz.M) steps fz lf lm lmin wob th = GnmRes.ok f eqs)
    (hf : 0 < f) :
    (gnm none false T heap fresh num_players (some acts) (some pay)
      (some gl) true steps fz lf lm lmin wob th).ret = f ∧
    (gnm none false T heap fresh num_players (some acts) (some pay)
      (some gl) true steps fz lf lm lmin wob th).released = f.toNat ∧
    ∃ buf,
      (gnm none false T heap fresh num_players (some acts) (some pay)
        (some gl) true steps fz lf lm lmin wob th).answers =
        some (fresh, buf) ∧
      buf.length = f.toNat * sz.M ∧
      ∀ row i, row < f.toNat → i < sz.M →
        buf[row * sz.M + i]? = eqs[row]?.bind fun v => v[i]? := by
  obtain ⟨hlen, hvlen⟩ := T.run_wf sz (acts.take sz.N)
    (pay.take sz.payoff_len) (gl.take sz.M) steps fz lf lm lmin wob th f
    eqs hrun
  have h0 : ¬ f = 0 := by omega
  have hneg : ¬ f < 0 := by omega
  have htake : eqs.take f.toNat = eqs := by
    rw [← hlen]
    exact List.take_length eqs
  have hL : ∀ e ∈ eqs.map fun v => v.take sz.M, e.length = sz.M := by
    intro e he
    simp only [List.mem_map] at he
    obtain ⟨v, hv, rfl⟩ := he
    rw [List.length_take, hvlen v hv]
    omega
  have hLlen : (eqs.map fun v => v.take sz.M).length = f.toNat := by
    rw [List.length_map, hlen]
  refine ⟨by simp [gnm, hsz, hrun, h0, hneg], ?_, ?_⟩
  · simp [gnm, hsz, hrun, h0, hneg, cleanup_eq]
  refine ⟨((eqs.take f.toNat).map fun v => v.take sz.M).flatten, ?_, ?_, ?_⟩
  · simp [gnm, hsz, hrun, h0, hneg]
  · rw [htake, flatten_length_const _ sz.M hL, hLlen]
  · intro row i hrow hi
    rw [htake]
    rw [flatten_getElem (eqs.map fun v => v.take sz.M) sz.M row i hL
      (by omega) hi]
    rw [List.getElem?_map]
    rcases hv : eqs[row]? with _ | v
    · simp
    · simp [List.getElem?_take, hi]

/-- Witness for C4: a validated call with two discovered equilibria. -/
theorem gnm_success_marshals_witness :
    (gnm none false (listGnmSolver 2) [] 7 1 (some [1])
      (some [(0 : Int)]) (some [0]) true 0 0 0 0 0 0 0).ret = 2 ∧
    (gnm none false (listGnmSolver 2) [] 7 1 (some [1])
      (some [(0 : Int)]) (some [0]) true 0 0 0 0 0 0 0).released =
      (2 : Int).toNat ∧
    ∃ buf,
      (gnm none false (listGnmSolver 2) [] 7 1 (some [1])
        (some [(0 : Int)]) (some [0]) true 0 0 0 0 0 0 0).answers =
        some (7, buf) ∧
      buf.length = (2 : Int).toNat * (⟨1, 1, 1, 1⟩ : GameSizes).M ∧
      ∀ row i, row < (2 : Int).toNat → i < (⟨1, 1, 1, 1⟩ : GameSizes).M →
        buf[row * (⟨1, 1, 1, 1⟩ : GameSizes).M + i]? =
          (((List.range (2 : Int).toNat).map fun k : Nat =>
            List.replicate (⟨1, 1, 1, 1⟩ : GameSizes).M
              (Int.ofNat k))[row]?).bind fun v => v[i]? :=
  gnm_success_marshals (listGnmSolver 2) [] 7 1 [1] [(0 : Int)] [0]
    0 0 0 0 0 0 0 ⟨1, 1, 1, 1⟩ 2
    ((List.range (2 : Int).toNat).map fun k : Nat =>
      List.replicate (⟨1, 1, 1, 1⟩ : GameSizes).M (Int.ofNat k))
    (by decide) (by decide) (by decide)

/-- C9: `gametracer_free` applied to the null/no-buffer sentinel is a
no-op that never faults, and it validly releases any pointer previously
returned through `gnm`'s `answers` out-parameter (the pointer is a live
heap block after the call, so freeing it succeeds). -/
theorem gametracer_free_null_noop {α : Type}
    (adapterFail : Option CppError) (resultAllocFail : Bool)
    (T : GnmSolver α) (heap : List Nat) (fresh : Nat) (num_players : Int)
    (actionsO : Option (List Int)) (payO gO : Option (List α))
    (answersPtr : Bool) (steps lf lm wob : Int) (fz lmin th : α) :
    (∀ h : List Nat, gametracer_free h none = some h) ∧
    (∀ ptr buf,
      (gnm adapterFail resultAllocFail T heap fresh num_players actionsO
        payO gO answersPtr steps fz lf lm lmin wob th).answers =
        some (ptr, buf) →
      gametracer_free
        (gnm adapterFail resultAllocFail T heap fresh num_players actionsO
          payO gO answersPtr steps fz lf lm lmin wob th).heap (some ptr) =
      some (((gnm adapterFail resultAllocFail T heap fresh num_players
        actionsO payO gO answersPtr steps fz lf lm lmin wob
        th).heap).erase ptr)) := by
  constructor
  · intro h
    rfl
  · intro ptr buf hans
    rcases gnm_shape adapterFail resultAllocFail T heap fresh num_players
      actionsO payO gO answersPtr steps lf lm wob fz lmin th with
      ⟨ha, _, _, _, _, _⟩ | ⟨acts, pay, gl, sz, f, eqs, _, _, _, _, _, _, _, _, _,
        hR⟩
    · rw [ha] at hans
      exact Option.noConfusion hans
    · rw [hR] at hans ⊢
      injection hans with hans
      have hptr : ptr = fresh := ((Prod.mk.injEq _ _ _ _ ▸ hans).1).symm
      subst hptr
      simp [gametracer_free]

/-- Witness for C9: freeing the block returned by a concrete successful
`gnm` call, and the null no-op. -/
theorem gametracer_free_null_noop_witness :
    gametracer_free [3] none = some [3] ∧
    gametracer_free
      (gnm none false (listGnmSolver 1) [3] 9 1 (some [1])
        (some [(0 : Int)]) (some [0]) true 0 0 0 0 0 0 0).heap (some 9) =
      some (((gnm none false (listGnmSolver 1) [3] 9 1 (some [1])
        (some [(0 : Int)]) (some [0]) true 0 0 0 0 0 0 0).heap).erase 9) := by
  have h := gametracer_free_null_noop none false (listGnmSolver 1) [3] 9 1
    (some [1]) (some [(0 : Int)]) (some [0]) true 0 0 0 0 0 0 0
  exact ⟨h.1 [3], h.2 9 [0] (by decide)⟩

theorem ipa_shape {α : Type} (adapterFail : Option CppError)
    (S : IpaSolver α) (num_players : Int) (actionsO : Option (List Int))
    (payO gO zhO ansO : Option (List α)) (alpha fz : α) :
    ((ipa adapterFail S num_players actionsO payO gO zhO alpha fz
        ansO).ret < 0 ∧
      (ipa adapterFail S num_players actionsO payO gO zhO alpha fz
        ansO).actions = actionsO ∧
      (ipa adapterFail S num_players actionsO payO gO zhO alpha fz
        ansO).payoffs = payO ∧
      (ipa adapterFail S num_players actionsO payO gO zhO alpha fz
        ansO).g = gO ∧
      (ipa adapterFail S num_players actionsO payO gO zhO alpha fz
        ansO).zh = zhO ∧
      (ipa adapterFail S num_players actionsO payO gO zhO alpha fz
        ansO).ans = ansO) ∨
    (∃ acts pay gl zhl ansl sz r z an,
      actionsO = some acts ∧ payO = some pay ∧ gO = some gl ∧
      zhO = some zhl ∧ ansO = some ansl ∧ adapterFail = none ∧
      compute_sizes num_players (some acts) = some sz ∧
      S.run sz (acts.take sz.N) (pay.take sz.payoff_len) (gl.take sz.M)
        (zhl.take sz.M) alpha fz = IpaRes.ok r z an ∧
      ipa adapterFail S num_players actionsO payO gO zhO alpha fz ansO =
        ⟨r, some acts, some pay, some gl,
          some (z.take sz.M ++ zhl.drop sz.M),
          some (an.take sz.M ++ ansl.drop sz.M), true, true⟩) := by
  rcases actionsO with _ | acts
  · left
    simp [ipa]
  rcases payO with _ | pay
  · left
    simp [ipa]
  rcases gO with _ | gl
  · left
    simp [ipa]
  rcases zhO with _ | zhl
  · left
    simp [ipa]
  rcases ansO with _ | ansl
  · left
    simp [ipa]
  rcases hsz : compute_sizes num_players (some acts) with _ | sz
  · left
    simp [ipa, hsz]
  rcases adapterFail with _ | e
  case some =>
    left
    rcases e <;> simp [ipa, hsz]
  rcases hrun : S.run sz (acts.take sz.N) (pay.take sz.payoff_len)
    (gl.take sz.M) (zhl.take sz.M) alpha fz with ⟨r, z, an⟩ | e
  case err =>
    left
    rcases e <;> simp [ipa, hsz, hrun]
  right
  refine ⟨acts, pay, gl, zhl, ansl, sz, r, z, an, rfl, rfl, rfl, rfl, rfl,
    rfl, hsz, hrun, ?_⟩
  simp [ipa, hsz, hrun]

/-- C7: for every call to `ipa` or `gnm`, on every return path, the
caller-supplied read-only buffers — the action-count array, the payoff
array and the perturbation ray — are unchanged when the call returns; in
`ipa` only the `zh` and `ans` cells can differ from their input contents
(the shim hands the solver copies, never the caller's buffers). -/
theorem read_only_inputs_unchanged {α : Type}
    (adapterFail : Option CppError) (resultAllocFail : Bool)
    (S : IpaSolver α) (T : GnmSolver α) (num_players : Int)
    (actionsO : Option (List Int)) (payO gO zhO ansO : Option (List α))
    (alpha fz : α) (heap : List Nat) (fresh : Nat) (answersPtr : Bool)
    (steps lf lm wob : Int) (lmin th : α) :
    (ipa adapterFail S num_players actionsO payO gO zhO alpha fz
      ansO).actions = actionsO ∧
    (ipa adapterFail S num_players actionsO payO gO zhO alpha fz
      ansO).payoffs = payO ∧
    (ipa adapterFail S num_players actionsO payO gO zhO alpha fz
      ansO).g = gO ∧
    (gnm adapterFail resultAllocFail T heap fresh num_players actionsO payO
      gO answersPtr steps fz lf lm lmin wob th).actions = actionsO ∧
    (gnm adapterFail resultAllocFail T heap fresh num_players actionsO payO
      gO answersPtr steps fz lf lm lmin wob th).payoffs = payO ∧
    (gnm adapterFail resultAllocFail T heap fresh num_players actionsO payO
      gO answersPtr steps fz lf lm lmin wob th).g = gO := by
  refine ⟨?_, ?_, ?_, ?_, ?_, ?_⟩
  · rcases ipa_shape adapterFail S num_players actionsO payO gO zhO ansO
      alpha fz with ⟨_, h, _, _, _, _⟩ |
      ⟨acts, pay, gl, zhl, ansl, sz, r, z, an, ha, _, _, _, _, _, _, _, hR⟩
    · exact h
    · rw [hR, ha]
  · rcases ipa_shape adapterFail S num_players actionsO payO gO zhO ansO
      alpha fz with ⟨_, _, h, _, _, _⟩ |
      ⟨acts, pay, gl, zhl, ansl, sz, r, z, an, _, hp, _, _, _, _, _, _, hR⟩
    · exact h
    · rw [hR, hp]
  · rcases ipa_shape adapterFail S num_players actionsO payO gO zhO ansO
      alpha fz with ⟨_, _, _, h, _, _⟩ |
      ⟨acts, pay, gl, zhl, ansl, sz, r, z, an, _, _, hg, _, _, _, _, _, hR⟩
    · exact h
    · rw [hR, hg]
  · rcases gnm_shape adapterFail resultAllocFail T heap fresh num_players
      actionsO payO gO answersPtr steps lf lm wob fz lmin th with
      ⟨_, _, _, h, _, _⟩ |
      ⟨acts, pay, gl, sz, f, eqs, ha, _, _, _, _, _, _, _, _, hR⟩
    · exact h
    · rw [hR, ha]
  · rcases gnm_shape adapterFail resultAllocFail T heap fresh num_players
      actionsO payO gO answersPtr steps lf lm wob fz lmin th with
      ⟨_, _, _, _, h, _⟩ |
      ⟨acts, pay, gl, sz, f, eqs, _, hp, _, _, _, _, _, _, _, hR⟩
    · exact h
    · rw [hR, hp]
  · rcases gnm_shape adapterFail resultAllocFail T heap fresh num_players
      actionsO payO gO answersPtr steps lf lm wob fz lmin th with
      ⟨_, _, _, _, _, h⟩ |
      ⟨acts, pay, gl, sz, f, eqs, _, _, hg, _, _, _, _, _, _, hR⟩
    · exact h
    · rw [hR, hg]

/-- C8 counterexample: two `ipa` calls that are identical except for the
initial contents of the `ans` output buffer and fail validation
(`num_players = 0`) end with different final `ans` contents (each keeps its
own initial contents untouched), so "the final contents of zh and ans are
identical" does not hold of every such pair of calls. -/
theorem ipa_ans_noninterference_cex :
    ¬ ((ipa none (constIpaSolver 1) 0 (some [1]) (some [(0 : Int)])
        (some [0]) (some [0]) 0 0 (some [1])).ans =
      (ipa none (constIpaSolver 1) 0 (some [1]) (some [(0 : Int)])
        (some [0]) (some [0]) 0 0 (some [2])).ans) := by
  decide

/-- C8 (amended): for any two `ipa` calls with identical game, ray,
work-buffer, alpha and cutoff arguments that differ only in the initial
contents of the `ans` output buffer, the return code and the final
contents of `zh` are always identical; whenever the call reaches the
upstream solver and it returns normally (in particular after every
successful call) the final contents of `ans` are identical as well; and
after a successful call `zh` and `ans` each hold `M` values. -/
theorem ipa_ans_no_influence {α : Type} (adapterFail : Option CppError)
    (S : IpaSolver α) (num_players : Int) (acts : List Int)
    (pay gl zhl : List α) (alpha fz : α) (ans1 ans2 : List α) :
    (ipa adapterFail S num_players (some acts) (some pay) (some gl)
      (some zhl) alpha fz (some ans1)).ret =
    (ipa adapterFail S num_players (some acts) (some pay) (some gl)
      (some zhl) alpha fz (some ans2)).ret ∧
    (ipa adapterFail S num_players (some acts) (some pay) (some gl)
      (some zhl) alpha fz (some ans1)).zh =
    (ipa adapterFail S num_players (some acts) (some pay) (some gl)
      (some zhl) alpha fz (some ans2)).zh ∧
    (∀ sz r z an, adapterFail = none →
      compute_sizes num_players (some acts) = some sz →
      S.run sz (acts.take sz.N) (pay.take sz.payoff_len) (gl.take sz.M)
        (zhl.take sz.M) alpha fz = IpaRes.ok r z an →
      ans1.length = sz.M → ans2.length = sz.M →
      (ipa adapterFail S num_players (some acts) (some pay) (some gl)
        (some zhl) alpha fz (some ans1)).ans =
      (ipa adapterFail S num_players (some acts) (some pay) (some gl)
        (some zhl) alpha fz (some ans2)).ans) ∧
    (∀ sz r z an, adapterFail = none →
      compute_sizes num_players (some acts) = some sz →
      S.run sz (acts.take sz.N) (pay.take sz.payoff_len) (gl.take sz.M)
        (zhl.take sz.M) alpha fz = IpaRes.ok r z an →
      0 < r → zhl.length = sz.M → ans1.length = sz.M →
      ∃ zf af,
        (ipa adapterFail S num_players (some acts) (some pay) (some gl)
          (some zhl) alpha fz (some ans1)).zh = some zf ∧
        zf.length = sz.M ∧
        (ipa adapterFail S num_players (some acts) (some pay) (some gl)
          (some zhl) alpha fz (some ans1)).ans = some af ∧
        af.length = sz.M) := by
  refine ⟨?_, ?_, ?_, ?_⟩
  · rcases hsz : compute_sizes num_players (some acts) with _ | sz
    · simp [ipa, hsz]
    rcases adapterFail with _ | e
    case some =>
      rcases e <;> simp [ipa, hsz]
    rcases hrun : S.run sz (acts.take sz.N) (pay.take sz.payoff_len)
      (gl.take sz.M) (zhl.take sz.M) alpha fz with ⟨r, z, an⟩ | e
    case err =>
      rcases e <;> simp [ipa, hsz, hrun]
    simp [ipa, hsz, hrun]
  · rcases hsz : compute_sizes num_players (some acts) with _ | sz
    · simp [ipa, hsz]
    rcases adapterFail with _ | e
    case some =>
      rcases e <;> simp [ipa, hsz]
    rcases hrun : S.run sz (acts.take sz.N) (pay.take sz.payoff_len)
      (gl.take sz.M) (zhl.take sz.M) alpha fz with ⟨r, z, an⟩ | e
    case err =>
      rcases e <;> simp [ipa, hsz, hrun]
    simp [ipa, hsz, hrun]
  · intro sz r z an haf hsz hrun h1 h2
    subst haf
    have hd1 : ans1.drop sz.M = [] := by
      rw [← h1, List.drop_length]
    have hd2 : ans2.drop sz.M = [] := by
      rw [← h2, List.drop_length]
    simp [ipa, hsz, hrun, hd1, hd2]
  · intro sz r z an haf hsz hrun hr hzl h1
    subst haf
    obtain ⟨hzlen, hanlen⟩ := S.run_len sz (acts.take sz.N)
      (pay.take sz.payoff_len) (gl.take sz.M) (zhl.take sz.M) alpha fz r z
      an hrun
    refine ⟨z.take sz.M ++ zhl.drop sz.M, an.take sz.M ++ ans1.drop sz.M,
      by simp [ipa, hsz, hrun], ?_, by simp [ipa, hsz, hrun], ?_⟩
    · rw [List.length_append, List.length_take, List.length_drop]
      omega
    · rw [List.length_append, List.length_take, List.length_drop]
      omega

/-- Witness for C8 (amended) at a concrete successful call. -/
theorem ipa_ans_no_influence_witness :
    (ipa none (constIpaSolver 5) 1 (some [1]) (some [(0 : Int)])
      (some [0]) (some [9]) 0 0 (some [7])).ans =
    (ipa none (constIpaSolver 5) 1 (some [1]) (some [(0 : Int)])
      (some [0]) (some [9]) 0 0 (some [8])).ans ∧
    ∃ zf af,
      (ipa none (constIpaSolver 5) 1 (some [1]) (some [(0 : Int)])
        (some [0]) (some [9]) 0 0 (some [7])).zh = some zf ∧
      zf.length = (⟨1, 1, 1, 1⟩ : GameSizes).M ∧
      (ipa none (constIpaSolver 5) 1 (some [1]) (some [(0 : Int)])
        (some [0]) (some [9]) 0 0 (some [7])).ans = some af ∧
      af.length = (⟨1, 1, 1, 1⟩ : GameSizes).M := by
  have h := ipa_ans_no_influence none (constIpaSolver 5) 1 [1]
    [(0 : Int)] [0] [9] 0 0 [7] [8]
  exact ⟨h.2.2.1 ⟨1, 1, 1, 1⟩ 5 (List.replicate 1 0) (List.replicate 1 1)
      rfl (by decide) (by decide) (by decide) (by decide),
    h.2.2.2 ⟨1, 1, 1, 1⟩ 5 (List.replicate 1 0) (List.replicate 1 1)
      rfl (by decide) (by decide) (by decide) (by decide) (by decide)⟩

/-- C5 evidence: on a validated call whose upstream IPA collaborator
returns the negative value -7 normally, the shim returns -7 unchanged —
`return ret;` passes the upstream value through — instead of reporting the
internal-error code -3 required by its documented return convention (as
`gnm` does for a negative GNM return). -/
theorem ipa_passes_negative_solver_return_through :
    (ipa none (constIpaSolver (-7)) 1 (some [1]) (some [(0 : Int)])
      (some [0]) (some [0]) 0 0 (some [0])).ret = -7 ∧
    (ipa none (constIpaSolver (-7)) 1 (some [1]) (some [(0 : Int)])
      (some [0]) (some [0]) 0 0 (some [0])).solverCalled = true := by
  decide

/-- C10 evidence: on a validated call whose upstream IPA collaborator
returns the negative value -2 normally, the shim still copies the solver's
work and answer vectors back into the caller's `zh` and `ans` buffers
before returning the negative code, so a call returning a negative code is
not atomic with respect to the caller's buffers. -/
theorem ipa_negative_return_mutates_buffers :
    (ipa none (constIpaSolver (-2)) 1 (some [1]) (some [(0 : Int)])
      (some [0]) (some [7]) 0 0 (some [7])).ret = -2 ∧
    ¬ ((ipa none (constIpaSolver (-2)) 1 (some [1]) (some [(0 : Int)])
      (some [0]) (some [7]) 0 0 (some [7])).zh = some [7]) ∧
    ¬ ((ipa none (constIpaSolver (-2)) 1 (some [1]) (some [(0 : Int)])
      (some [0]) (some [7]) 0 0 (some [7])).ans = some [7]) := by
  decide

end GameTracer
